import Mathlib

/-!
Verification of the playback subsystem of the Utility-Discord-Bot repository.

The embedding covers:
* `Track` (source file: the class with `createAudioResource`, `getVideoDetails`,
  `getAudioResource`): provider fallback resolution and lazy metadata.
* `shuffleArray` (source file `src/utils.ts`): the in-place Durstenfeld shuffle.
* `Session.pause` / `Session.resume`: the `Session` class itself is not among the
  provided source files (only its caller `src/commands/player/pause.ts` is), so
  those two operations are modelled from the spec.

External effects are made explicit: provider success/failure is an input
(`ProviderOutcomes`), randomness is an input (`rand : Nat → Nat`), and the
mutable `this.details` field of `Track` is explicit state.  JS object identity
(needed for the shallow-copy `{ ...this.details }` claims) is modelled by a heap
address carried next to the field values, with a fresh-address counter.
-/

/-- Variant enum from the source: `enum TrackVariant { YOUTUBE_VOD, YOUTUBE_LIVESTREAM, TWITCH_VOD, TWITCH_LIVESTREAM }`. -/
inductive TrackVariant
  | YOUTUBE_VOD
  | YOUTUBE_LIVESTREAM
  | TWITCH_VOD
  | TWITCH_LIVESTREAM
deriving DecidableEq, Repr

/-- Field values of the source interface `VideoDetails { title: string, duration?: number }`. -/
structure VideoDetails where
  title : String
  duration : Option Nat
deriving DecidableEq, Repr

/-- Source interface `AudioResourceOptions { seek?: number, speed?: number }`.
JS numbers are modelled as rationals; an absent option is `none`. -/
structure AudioResourceOptions where
  seek : Option ℚ
  speed : Option ℚ
deriving DecidableEq, Repr

/-- JS truthiness of an optional number: `undefined` and `0` are falsy
(`if (speed)`, `options.seek ? _ : _` in the source). -/
def jsTruthy : Option ℚ → Bool
  | none => false
  | some q => decide (q ≠ 0)

/-- Arguments of a `play.stream` call: the link and, when the source passes the
`{ seek: options.seek }` options object, the seek it contains. -/
structure PlayDlRequest where
  link : String
  seekOption : Option ℚ
deriving DecidableEq, Repr

/-- An ffmpeg audio filter; the source only ever installs `atempo=${speed}`. -/
inductive AudioFilter
  | atempo (speed : ℚ)
deriving DecidableEq, Repr

/-- Configuration of the ffmpeg stage built in `tryYtdlExec` (and `tryYtdlCore`):
the installed audio filters and the start time passed to `setStartTime`. -/
structure FfmpegPipeline where
  filters : List AudioFilter
  startTime : Option Int
deriving DecidableEq, Repr

/-- A successfully created audio resource, remembering which provider produced it
and with which configuration. -/
inductive AudioResource
  | fromPlayDl (req : PlayDlRequest)
  | fromYtdlExec (link : String) (pipeline : FfmpegPipeline)
deriving DecidableEq, Repr

/-- Errors of the resolution subsystem.  `jsError` is a raw JS error value as
thrown by a provider.  `resolutionError` is the `ResolutionError` wrapper named
by the spec's error taxonomy (§7); the code under `src` never constructs such a
wrapper, and the constructor exists here only so the spec's claim about it can
be stated and compared against the code. -/
inductive PlayError
  | jsError (msg : String)
  | resolutionError (msg : String)
deriving DecidableEq, Repr

/-- Whether a resolution outcome failed with the spec's `ResolutionError` wrapper. -/
def PlayError.isResolutionError : PlayError → Bool
  | .resolutionError _ => true
  | .jsError _ => false

/-- Whether an `Except` outcome is a failure carrying a `ResolutionError`. -/
def resultIsResolutionError : Except PlayError AudioResource → Bool
  | .error e => e.isResolutionError
  | .ok _ => false

/-- The provider functions defined inside `createAudioResource`. -/
inductive ProviderName
  | playDl
  | ytdlExec
  | ytdlCore
deriving DecidableEq, Repr

/-- External-world input: whether each provider call succeeds on this invocation,
and the error message it throws when it fails. -/
structure ProviderOutcomes where
  playDlOk : Bool
  playDlErr : String
  ytdlOk : Bool
  ytdlErr : String
deriving DecidableEq, Repr

/-- Embedding of `tryPlayDl`: `options.seek ? play.stream(link, { seek: options.seek }) : play.stream(link)`,
then wrapping the stream into an audio resource.  A throw from the provider is a
raw JS error. -/
def tryPlayDl (link : String) (options : AudioResourceOptions) (world : ProviderOutcomes) :
    Except PlayError AudioResource :=
  if world.playDlOk then
    .ok (.fromPlayDl { link := link
                       seekOption := if jsTruthy options.seek then options.seek else none })
  else
    .error (.jsError world.playDlErr)

/-- Embedding of the ffmpeg stage built inside `tryYtdlExec`:
`if (speed) manipulatedStream.audioFilters('atempo=' + speed); if (seek) manipulatedStream.setStartTime(Math.ceil(seek))`. -/
def ytdlFfmpegPipeline (seek speed : Option ℚ) : FfmpegPipeline :=
  { filters := match speed with
      | some s => if s ≠ 0 then [AudioFilter.atempo s] else []
      | none => []
    startTime := match seek with
      | some q => if q ≠ 0 then some (Rat.ceil q) else none
      | none => none }

/-- Embedding of `tryYtdlExec`: on success it resolves with a resource built from
the ffmpeg-manipulated stdout stream; on any failure (`No stdout`, spawn error,
stream error) the promise rejects with the raw error. -/
def tryYtdlExec (link : String) (seek speed : Option ℚ) (world : ProviderOutcomes) :
    Except PlayError AudioResource :=
  if world.ytdlOk then
    .ok (.fromYtdlExec link (ytdlFfmpegPipeline seek speed))
  else
    .error (.jsError world.ytdlErr)

/-- A JS object holding `VideoDetails`: a heap address plus the field values.
`{ ...obj }` allocates a new address with the same field values. -/
structure DetailsObj where
  addr : Nat
  val : VideoDetails
deriving DecidableEq, Repr

/-- State of a `Track` instance: the three `readonly` identity fields and the
private mutable `details` field. -/
structure Track where
  link : String
  variant : TrackVariant
  sourceLink : Option String
  details : Option DetailsObj
deriving DecidableEq, Repr

/-- Source interface `TrackConstructorOptions`. -/
structure TrackConstructorOptions where
  link : String
  variant : TrackVariant
  details : Option DetailsObj
  sourceLink : Option String
deriving DecidableEq, Repr

/-- The `Track` constructor: copies the four options onto the instance fields. -/
def Track.construct (o : TrackConstructorOptions) : Track :=
  { link := o.link
    variant := o.variant
    sourceLink := o.sourceLink
    details := o.details }

instance {ε α : Type} [DecidableEq ε] [DecidableEq α] : DecidableEq (Except ε α) := fun a b =>
  match a, b with
  | .error e, .error e' =>
    if h : e = e' then .isTrue (by rw [h]) else .isFalse (by simp [h])
  | .ok x, .ok y =>
    if h : x = y then .isTrue (by rw [h]) else .isFalse (by simp [h])
  | .error _, .ok _ => .isFalse (by simp)
  | .ok _, .error _ => .isFalse (by simp)

/-- Observable outcome of one `createAudioResource` call: the settled promise,
the errors passed to the `error(...)` logger instead of being propagated, and the
ordered list of providers that were actually invoked. -/
structure ResolveResult where
  result : Except PlayError AudioResource
  loggedErrors : List PlayError
  attempts : List ProviderName
deriving DecidableEq, Repr

/-- Embedding of `Track.createAudioResource`: for the YouTube variants, when the
`speed` option is falsy, `tryPlayDl` is attempted first and a throw from it is
caught and logged (`error('Error playing resource from play-dl', err)`); control
then falls through to the `default` case, which returns `tryYtdlExec()` with no
surrounding catch.  For a truthy `speed`, and for every non-YouTube variant, only
`tryYtdlExec` runs.  The returned `Track` is the post-call instance state: the
method body assigns to no field. -/
def Track.createAudioResource (t : Track) (options : AudioResourceOptions)
    (world : ProviderOutcomes) : ResolveResult × Track :=
  (match t.variant with
    | .YOUTUBE_LIVESTREAM | .YOUTUBE_VOD =>
      if jsTruthy options.speed then
        { result := tryYtdlExec t.link options.seek options.speed world
          loggedErrors := []
          attempts := [.ytdlExec] }
      else
        match tryPlayDl t.link options world with
        | .ok r => { result := .ok r, loggedErrors := [], attempts := [.playDl] }
        | .error e =>
          { result := tryYtdlExec t.link options.seek options.speed world
            loggedErrors := [e]
            attempts := [.playDl, .ytdlExec] }
    | _ =>
      { result := tryYtdlExec t.link options.seek options.speed world
        loggedErrors := []
        attempts := [.ytdlExec] },
   t)

/-- Observable outcome of one `getVideoDetails` call: the returned object, the
post-call instance state, the advanced fresh-address counter, and how many times
the underlying metadata provider (`getDetailsFromUrl` of the youtube module) was
invoked. -/
structure DetailsCallResult where
  returned : DetailsObj
  track : Track
  fresh : Nat
  fetches : Nat
deriving DecidableEq, Repr

/-- Embedding of `Track.getVideoDetails`.  `fetched` is the value the external
`getDetailsFromUrl` would produce on this call, `fresh` the next unused heap
address.  When `this.details` is populated, `{ ...this.details }` is returned
with no fetch.  Otherwise the switch on the variant populates `this.details`
(YouTube variants fetch; `TWITCH_VOD` and the `default` case store the literal
`{ title: 'TODO' }`), and a spread copy of it is returned. -/
def Track.getVideoDetails (t : Track) (fetched : VideoDetails) (fresh : Nat) :
    DetailsCallResult :=
  match t.details with
  | some d =>
    { returned := ⟨fresh, d.val⟩, track := t, fresh := fresh + 1, fetches := 0 }
  | none =>
    let fetchedVal : VideoDetails × Nat :=
      match t.variant with
      | .YOUTUBE_LIVESTREAM | .YOUTUBE_VOD => (fetched, 1)
      | .TWITCH_VOD => (⟨"TODO", none⟩, 0)
      | _ => (⟨"TODO", none⟩, 0)
    { returned := ⟨fresh + 1, fetchedVal.1⟩
      track := { t with details := some ⟨fresh, fetchedVal.1⟩ }
      fresh := fresh + 2
      fetches := fetchedVal.2 }

/-- Embedding of `Track.getAudioResource`: it only delegates to `createAudioResource`. -/
def Track.getAudioResource (t : Track) (options : AudioResourceOptions)
    (world : ProviderOutcomes) : ResolveResult × Track :=
  t.createAudioResource options world

/-- Modelled from the spec: the `Session` playback status.  The `Session` class
is not among the provided source files (only its caller
`src/commands/player/pause.ts` is); spec §3 lists
`status: one of {idle, loading, playing, paused, stopped}`. -/
inductive SessionStatus
  | idle
  | loading
  | playing
  | paused
  | stopped
deriving DecidableEq, Repr

/-- Modelled from the spec: `pause()` is valid only from `playing`, transitions to
`paused`, and returns whether the transition occurred (false if not currently
playing); the missing piece is the `Session` class body. -/
def Session.pause (s : SessionStatus) : Bool × SessionStatus :=
  if s = .playing then (true, .paused) else (false, s)

/-- Modelled from the spec: `resume()` is valid only from `paused`, transitions to
`playing`, and returns whether it occurred; the missing piece is the `Session`
class body. -/
def Session.resume (s : SessionStatus) : Bool × SessionStatus :=
  if s = .paused then (true, .playing) else (false, s)

/-- One iteration's body from `shuffleArray`:
`const temp = array[i]; array[i] = array[j]; array[j] = temp`.  The indices the
loop produces are always in bounds; out of bounds is modelled as a no-op. -/
def jsSwap {α : Type} (arr : Array α) (i j : Nat) : Array α :=
  if h : i < arr.size ∧ j < arr.size then
    arr.swap ⟨i, h.1⟩ ⟨j, h.2⟩
  else arr

/-- The loop of `shuffleArray`: `for (let i = array.length - 1; i > 0; i--)`,
where `rand i` stands for the draw `Math.floor(Math.random() * (i + 1))` made at
index `i` (always in `[0, i]`). -/
def shuffleLoop {α : Type} (rand : Nat → Nat) : Array α → Nat → Array α
  | arr, 0 => arr
  | arr, i + 1 => shuffleLoop rand (jsSwap arr (i + 1) (rand (i + 1))) i

/-- Embedding of `shuffleArray` from `src/utils.ts` (Durstenfeld shuffle), with
the random draws supplied as the function `rand`. -/
def shuffleArray {α : Type} (arr : Array α) (rand : Nat → Nat) : Array α :=
  shuffleLoop rand arr (arr.size - 1)

/-- A non-integer rational, three halves, used as a concrete seek offset. -/
def threeHalves : ℚ := ⟨3, 2, by decide, by decide⟩

/-- Concrete YouTube track used in concrete evaluations. -/
def ytTrack : Track :=
  { link := "https://www.youtube.com/watch?v=a", variant := .YOUTUBE_VOD
    sourceLink := none, details := none }

/-- Concrete world in which both providers fail. -/
def bothFailWorld : ProviderOutcomes :=
  { playDlOk := false, playDlErr := "network error"
    ytdlOk := false, ytdlErr := "No stdout" }

/-- Options object with neither seek nor speed (`{}` in the source). -/
def noOptions : AudioResourceOptions := { seek := none, speed := none }

/-- Concrete Twitch livestream track with no details yet. -/
def twitchTrack : Track :=
  { link := "https://www.twitch.tv/somestreamer", variant := .TWITCH_LIVESTREAM
    sourceLink := none, details := none }

/-- Claim C1 counterexample: with both providers failing, `createAudioResource`
rejects with the raw ytdl-exec error, not a `ResolutionError` wrapper. -/
theorem createAudioResource_no_resolutionError_at_bothFail :
    ((ytTrack.createAudioResource noOptions bothFailWorld).1.result
      = .error (.jsError "No stdout"))
    ∧ resultIsResolutionError
        ((ytTrack.createAudioResource noOptions bothFailWorld).1.result) = false := by
  constructor
  · decide
  · decide

/-- Claim C1 amended: when every provider fails, resolve rejects with the last
underlying provider error propagated raw. -/
theorem createAudioResource_all_providers_fail_raw_last_error
    (t : Track) (o : AudioResourceOptions) (w : ProviderOutcomes)
    (hp : w.playDlOk = false) (hy : w.ytdlOk = false) :
    (t.createAudioResource o w).1.result = .error (.jsError w.ytdlErr) := by
  obtain ⟨link, variant, sl, d⟩ := t
  obtain ⟨pOk, pErr, yOk, yErr⟩ := w
  simp only at hp hy
  subst hp; subst hy
  cases variant <;>
    simp [Track.createAudioResource, tryPlayDl, tryYtdlExec] <;>
    (try split) <;> simp [tryYtdlExec]

theorem createAudioResource_all_providers_fail_raw_last_error_witness :
    (ytTrack.createAudioResource noOptions bothFailWorld).1.result
      = .error (.jsError "No stdout") :=
  createAudioResource_all_providers_fail_raw_last_error ytTrack noOptions bothFailWorld rfl rfl

/-- Claim C2: on a YouTube track, a nonzero speed makes resolution skip play-dl
entirely and go straight to ytdl-exec, whose ffmpeg stage carries the atempo
filter. -/
theorem createAudioResource_speed_skips_playDl
    (t : Track) (o : AudioResourceOptions) (w : ProviderOutcomes) (s : ℚ)
    (hv : t.variant = .YOUTUBE_VOD ∨ t.variant = .YOUTUBE_LIVESTREAM)
    (hs : o.speed = some s) (hs0 : s ≠ 0) :
    (t.createAudioResource o w).1.attempts = [.ytdlExec]
    ∧ ProviderName.playDl ∉ (t.createAudioResource o w).1.attempts
    ∧ (w.ytdlOk = true →
        (t.createAudioResource o w).1.result
          = .ok (.fromYtdlExec t.link (ytdlFfmpegPipeline o.seek o.speed)))
    ∧ (ytdlFfmpegPipeline o.seek o.speed).filters = [.atempo s] := by
  obtain ⟨link, variant, sl, d⟩ := t
  obtain ⟨seek, speed⟩ := o
  simp only at hs
  subst hs
  rcases hv with hv | hv <;> subst hv <;>
    refine ⟨?_, ?_, ?_, ?_⟩ <;>
    simp [Track.createAudioResource, tryYtdlExec, ytdlFfmpegPipeline, jsTruthy, hs0]

theorem createAudioResource_speed_skips_playDl_witness :
    ((ytTrack.createAudioResource ⟨none, some 2⟩
        { playDlOk := true, playDlErr := "", ytdlOk := true, ytdlErr := "" }).1.attempts
      = [.ytdlExec])
    ∧ ProviderName.playDl ∉
        ((ytTrack.createAudioResource ⟨none, some 2⟩
          { playDlOk := true, playDlErr := "", ytdlOk := true, ytdlErr := "" }).1.attempts) := by
  have h := createAudioResource_speed_skips_playDl ytTrack ⟨none, some 2⟩
    { playDlOk := true, playDlErr := "", ytdlOk := true, ytdlErr := "" } 2
    (Or.inl rfl) rfl (by decide)
  exact ⟨h.1, h.2.1⟩

/-- Claim C3: on a YouTube track resolved without a speed option, a play-dl
failure is logged and not propagated, ytdl-exec is tried next, and its success
is returned; the number of providers tried is bounded by the chain length. -/
theorem createAudioResource_playDl_failure_falls_back
    (t : Track) (o : AudioResourceOptions) (w : ProviderOutcomes)
    (hv : t.variant = .YOUTUBE_VOD ∨ t.variant = .YOUTUBE_LIVESTREAM)
    (hsp : jsTruthy o.speed = false)
    (hpfail : w.playDlOk = false) (hyok : w.ytdlOk = true) :
    (t.createAudioResource o w).1.result
      = .ok (.fromYtdlExec t.link (ytdlFfmpegPipeline o.seek o.speed))
    ∧ (t.createAudioResource o w).1.loggedErrors = [.jsError w.playDlErr]
    ∧ (t.createAudioResource o w).1.attempts = [.playDl, .ytdlExec]
    ∧ ∀ (t' : Track) (o' : AudioResourceOptions) (w' : ProviderOutcomes),
        (t'.createAudioResource o' w').1.attempts.length ≤ 2 := by
  obtain ⟨link, variant, sl, d⟩ := t
  obtain ⟨pOk, pErr, yOk, yErr⟩ := w
  simp only at hpfail hyok
  subst hpfail; subst hyok
  refine ⟨?_, ?_, ?_, ?_⟩
  · rcases hv with hv | hv <;> subst hv <;>
      simp [Track.createAudioResource, tryPlayDl, tryYtdlExec, hsp]
  · rcases hv with hv | hv <;> subst hv <;>
      simp [Track.createAudioResource, tryPlayDl, hsp]
  · rcases hv with hv | hv <;> subst hv <;>
      simp [Track.createAudioResource, tryPlayDl, hsp]
  · intro t' o' w'
    obtain ⟨link', variant', sl', d'⟩ := t'
    cases variant' <;> simp only [Track.createAudioResource] <;>
      (try split) <;> (try split) <;> simp

theorem createAudioResource_playDl_failure_falls_back_witness :
    ((ytTrack.createAudioResource noOptions
        { playDlOk := false, playDlErr := "boom", ytdlOk := true, ytdlErr := "" }).1.result
      = .ok (.fromYtdlExec ytTrack.link (ytdlFfmpegPipeline none none)))
    ∧ ((ytTrack.createAudioResource noOptions
        { playDlOk := false, playDlErr := "boom", ytdlOk := true, ytdlErr := "" }).1.loggedErrors
      = [.jsError "boom"]) := by
  have h := createAudioResource_playDl_failure_falls_back ytTrack noOptions
    { playDlOk := false, playDlErr := "boom", ytdlOk := true, ytdlErr := "" }
    (Or.inl rfl) rfl rfl rfl
  exact ⟨h.1, h.2.1⟩

/-- Claim C4: `getVideoDetails` returns the memoized details with no fetch when
populated; two consecutive calls perform exactly one underlying fetch (the
second call never fetches); each call returns a spread copy whose address
differs from the cached object's, so mutating it cannot change the cache. -/
theorem getVideoDetails_memoization_and_copy
    (t : Track) (fetched fetched' : VideoDetails) (fresh : Nat) :
    (∀ d, t.details = some d →
      (t.getVideoDetails fetched fresh).fetches = 0
      ∧ (t.getVideoDetails fetched fresh).returned.val = d.val
      ∧ (t.getVideoDetails fetched fresh).track = t
      ∧ (d.addr < fresh → (t.getVideoDetails fetched fresh).returned.addr ≠ d.addr))
    ∧ ((t.getVideoDetails fetched fresh).track.getVideoDetails fetched'
        (t.getVideoDetails fetched fresh).fresh).fetches = 0
    ∧ ((t.variant = .YOUTUBE_VOD ∨ t.variant = .YOUTUBE_LIVESTREAM) →
        t.details = none →
        (t.getVideoDetails fetched fresh).fetches
          + ((t.getVideoDetails fetched fresh).track.getVideoDetails fetched'
              (t.getVideoDetails fetched fresh).fresh).fetches = 1)
    ∧ (∀ c, (t.getVideoDetails fetched fresh).track.details = some c →
        (∀ d, t.details = some d → d.addr < fresh) →
        (t.getVideoDetails fetched fresh).returned.addr ≠ c.addr) := by
  obtain ⟨link, variant, sl, d⟩ := t
  refine ⟨?_, ?_, ?_, ?_⟩
  · intro c hc
    cases d with
    | none => simp at hc
    | some d0 =>
      simp only [Option.some.injEq] at hc
      subst hc
      refine ⟨rfl, rfl, rfl, ?_⟩
      intro hlt
      simp [Track.getVideoDetails]
      omega
  · cases d <;> cases variant <;> simp [Track.getVideoDetails]
  · intro hv hd
    simp only at hd
    subst hd
    rcases hv with hv | hv <;> simp only at hv <;> subst hv <;>
      simp [Track.getVideoDetails]
  · intro c hc hfr
    cases d with
    | none =>
      cases variant <;>
        simp only [Track.getVideoDetails, Option.some.injEq] at hc ⊢ <;>
        (subst hc; simp)
    | some d0 =>
      simp only [Track.getVideoDetails, Option.some.injEq] at hc ⊢
      subst hc
      have := hfr d0 rfl
      omega

theorem getVideoDetails_memoization_and_copy_witness :
    ((Track.mk "L" .YOUTUBE_VOD none (some ⟨0, ⟨"t", none⟩⟩)).getVideoDetails
        ⟨"u", none⟩ 5).fetches = 0
    ∧ ((Track.mk "L" .YOUTUBE_VOD none (some ⟨0, ⟨"t", none⟩⟩)).getVideoDetails
        ⟨"u", none⟩ 5).returned.addr ≠ 0
    ∧ ((ytTrack.getVideoDetails ⟨"t", none⟩ 0).fetches
        + ((ytTrack.getVideoDetails ⟨"t", none⟩ 0).track.getVideoDetails ⟨"t2", none⟩
            (ytTrack.getVideoDetails ⟨"t", none⟩ 0).fresh).fetches = 1) := by
  have h := getVideoDetails_memoization_and_copy
    (Track.mk "L" .YOUTUBE_VOD none (some ⟨0, ⟨"t", none⟩⟩)) ⟨"u", none⟩ ⟨"u2", none⟩ 5
  have h2 := getVideoDetails_memoization_and_copy ytTrack ⟨"t", none⟩ ⟨"t2", none⟩ 0
  exact ⟨(h.1 ⟨0, ⟨"t", none⟩⟩ rfl).1,
         (h.1 ⟨0, ⟨"t", none⟩⟩ rfl).2.2.2 (by decide),
         h2.2.2.1 (Or.inl rfl) rfl⟩

/-- Claim C5 counterexample: for an unsupported variant the placeholder title the
code stores is `"TODO"`, not `"unknown"`. -/
theorem getVideoDetails_placeholder_is_TODO_not_unknown :
    (twitchTrack.getVideoDetails ⟨"ignored", none⟩ 0).returned.val.title = "TODO"
    ∧ (twitchTrack.getVideoDetails ⟨"ignored", none⟩ 0).returned.val.title ≠ "unknown" := by
  constructor
  · decide
  · decide

/-- Claim C5 amended: for variants without metadata support (the Twitch variants
and the default case) `getVideoDetails` returns the placeholder
`{title: "TODO"}` rather than failing. -/
theorem getVideoDetails_unsupported_variant_placeholder
    (t : Track) (fetched : VideoDetails) (fresh : Nat)
    (hd : t.details = none)
    (hv : t.variant = .TWITCH_VOD ∨ t.variant = .TWITCH_LIVESTREAM) :
    (t.getVideoDetails fetched fresh).returned.val = ⟨"TODO", none⟩ := by
  obtain ⟨link, variant, sl, d⟩ := t
  simp only at hd
  subst hd
  rcases hv with hv | hv <;> simp only at hv <;> subst hv <;>
    simp [Track.getVideoDetails]

theorem getVideoDetails_unsupported_variant_placeholder_witness :
    (twitchTrack.getVideoDetails ⟨"ignored", none⟩ 0).returned.val = ⟨"TODO", none⟩ :=
  getVideoDetails_unsupported_variant_placeholder twitchTrack ⟨"ignored", none⟩ 0
    rfl (Or.inr rfl)

/-- Claim C7: `pause()` returns false and leaves the status unchanged when the
status is not `playing`; `resume()` returns false and leaves the status
unchanged when it is not `paused`. -/
theorem session_pause_resume_invalid_transition_noop (s : SessionStatus) :
    (s ≠ .playing → Session.pause s = (false, s))
    ∧ (s ≠ .paused → Session.resume s = (false, s)) := by
  constructor
  · intro h
    simp [Session.pause, h]
  · intro h
    simp [Session.resume, h]

theorem session_pause_resume_invalid_transition_noop_witness :
    Session.pause .idle = (false, .idle) ∧ Session.resume .idle = (false, .idle) :=
  ⟨(session_pause_resume_invalid_transition_noop .idle).1 (by decide),
   (session_pause_resume_invalid_transition_noop .idle).2 (by decide)⟩

/-- Claim C8: once `details` is populated no operation invalidates or replaces
it, and the readonly identity fields are set by the constructor and never
modified by `createAudioResource`, `getAudioResource` or `getVideoDetails`. -/
theorem track_details_never_invalidated
    (t : Track) (o : AudioResourceOptions) (w : ProviderOutcomes)
    (fetched : VideoDetails) (fresh : Nat) (co : TrackConstructorOptions) :
    (t.createAudioResource o w).2 = t
    ∧ (t.getAudioResource o w).2 = t
    ∧ (∀ d, t.details = some d → (t.getVideoDetails fetched fresh).track.details = some d)
    ∧ (t.getVideoDetails fetched fresh).track.link = t.link
    ∧ (t.getVideoDetails fetched fresh).track.variant = t.variant
    ∧ (t.getVideoDetails fetched fresh).track.sourceLink = t.sourceLink
    ∧ (Track.construct co).link = co.link
    ∧ (Track.construct co).variant = co.variant
    ∧ (Track.construct co).sourceLink = co.sourceLink := by
  obtain ⟨link, variant, sl, d⟩ := t
  refine ⟨rfl, rfl, ?_, ?_, ?_, ?_, rfl, rfl, rfl⟩
  · intro d0 hd
    simp only at hd
    subst hd
    rfl
  all_goals cases d <;> cases variant <;> simp [Track.getVideoDetails]

theorem track_details_never_invalidated_witness :
    ((Track.mk "L" .YOUTUBE_VOD none (some ⟨0, ⟨"t", none⟩⟩)).getVideoDetails
        ⟨"u", none⟩ 5).track.details = some ⟨0, ⟨"t", none⟩⟩ := by
  have h := track_details_never_invalidated
    (Track.mk "L" .YOUTUBE_VOD none (some ⟨0, ⟨"t", none⟩⟩)) noOptions bothFailWorld
    ⟨"u", none⟩ 5 ⟨"L", .YOUTUBE_VOD, none, none⟩
  exact h.2.2.1 ⟨0, ⟨"t", none⟩⟩ rfl

/-- Claim C9: a zero `seek` and a zero `speed` are treated exactly like absent
options: no seek option reaches play-dl, no ffmpeg start time is set, play-dl is
not skipped, and no atempo filter is applied. -/
theorem zero_seek_zero_speed_treated_as_absent :
    (∀ (t : Track) (w : ProviderOutcomes),
        t.createAudioResource ⟨some 0, some 0⟩ w = t.createAudioResource ⟨none, none⟩ w)
    ∧ (∀ (link : String) (w : ProviderOutcomes),
        tryPlayDl link ⟨some 0, none⟩ w = tryPlayDl link ⟨none, none⟩ w)
    ∧ ytdlFfmpegPipeline (some 0) (some 0) = ytdlFfmpegPipeline none none
    ∧ (ytdlFfmpegPipeline (some 0) (some 0)).startTime = none
    ∧ (ytdlFfmpegPipeline (some 0) (some 0)).filters = []
    ∧ (∀ (t : Track) (w : ProviderOutcomes),
        (t.variant = .YOUTUBE_VOD ∨ t.variant = .YOUTUBE_LIVESTREAM) →
        ProviderName.playDl ∈ (t.createAudioResource ⟨none, some 0⟩ w).1.attempts) := by
  refine ⟨?_, ?_, by decide, by decide, by decide, ?_⟩
  · intro t w
    obtain ⟨link, variant, sl, d⟩ := t
    cases variant <;>
      simp [Track.createAudioResource, tryPlayDl, tryYtdlExec, ytdlFfmpegPipeline, jsTruthy]
  · intro link w
    simp [tryPlayDl, jsTruthy]
  · intro t w hv
    obtain ⟨link, variant, sl, d⟩ := t
    rcases hv with hv | hv <;> simp only at hv <;> subst hv <;>
      (simp [Track.createAudioResource, tryPlayDl, jsTruthy]; split <;> simp)

theorem zero_seek_zero_speed_treated_as_absent_witness :
    ProviderName.playDl ∈
      (ytTrack.createAudioResource ⟨none, some 0⟩ bothFailWorld).1.attempts := by
  have h := zero_seek_zero_speed_treated_as_absent
  exact h.2.2.2.2.2 ytTrack bothFailWorld (Or.inl rfl)

/-- Claim C10: a fractional seek is passed through unrounded to play-dl but
rounded up with `Math.ceil` on the ytdl-exec ffmpeg path, so for the non-integer
seek 3/2 the two providers start at different offsets (3/2 vs 2). -/
theorem seek_rounding_differs_between_providers :
    (∀ (s : ℚ), s ≠ 0 →
      (ytdlFfmpegPipeline (some s) none).startTime = some (Rat.ceil s)
      ∧ ∀ (link : String) (w : ProviderOutcomes), w.playDlOk = true →
          tryPlayDl link ⟨some s, none⟩ w = .ok (.fromPlayDl ⟨link, some s⟩))
    ∧ (ytdlFfmpegPipeline (some threeHalves) none).startTime = some 2
    ∧ (threeHalves : ℚ) ≠ ((2 : ℤ) : ℚ) := by
  refine ⟨?_, by decide, by decide⟩
  intro s hs
  constructor
  · simp [ytdlFfmpegPipeline, hs]
  · intro link w hok
    simp [tryPlayDl, jsTruthy, hok, hs]

theorem seek_rounding_differs_between_providers_witness :
    (ytdlFfmpegPipeline (some threeHalves) none).startTime = some (Rat.ceil threeHalves)
    ∧ tryPlayDl "L" ⟨some threeHalves, none⟩
        { playDlOk := true, playDlErr := "", ytdlOk := true, ytdlErr := "" }
      = .ok (.fromPlayDl ⟨"L", some threeHalves⟩) := by
  have h := seek_rounding_differs_between_providers.1 threeHalves (by decide)
  exact ⟨h.1, h.2 "L" { playDlOk := true, playDlErr := "", ytdlOk := true, ytdlErr := "" } rfl⟩

theorem jsSwap_size {α : Type} (arr : Array α) (i j : Nat) :
    (jsSwap arr i j).size = arr.size := by
  unfold jsSwap
  split <;> simp [Array.size_swap]

theorem shuffleLoop_size {α : Type} (rand : Nat → Nat) (k : Nat) (arr : Array α) :
    (shuffleLoop rand arr k).size = arr.size := by
  induction k generalizing arr with
  | zero => rfl
  | succ k ih => rw [shuffleLoop, ih, jsSwap_size]

theorem set_set_swap_perm {α : Type} [DecidableEq α] (l : List α) (i j : Nat)
    (hi : i < l.length) (hj : j < l.length) :
    ((l.set i l[j]).set j l[i]).Perm l := by
  rw [List.perm_iff_count]
  intro b
  have hj' : j < (l.set i l[j]).length := by simpa using hj
  rw [List.count_set _ _ _ _ hj', List.count_set _ _ _ _ hi]
  have hget : (l.set i l[j])[j] = l[j] := by
    rw [List.getElem_set]
    split <;> rfl
  rw [hget]
  have hp : (if (l[i] == b) = true then 1 else 0) ≤ List.count b l := by
    split
    · rename_i hb
      have hbm : b ∈ l := eq_of_beq hb ▸ List.getElem_mem hi
      exact List.count_pos_iff.mpr hbm
    · exact Nat.zero_le _
  omega

theorem jsSwap_toList {α : Type} (arr : Array α) (i j : Nat)
    (hi : i < arr.size) (hj : j < arr.size) :
    (jsSwap arr i j).toList = (arr.toList.set i arr[j]).set j arr[i] := by
  unfold jsSwap
  rw [dif_pos ⟨hi, hj⟩]
  have hcast : ∀ (n m : Nat) (h : n = m) (x : Fin n), ((h ▸ x : Fin m) : Nat) = (x : Nat) := by
    intro n m h x
    subst h
    rfl
  simp [Array.swap, Array.toList_set, hcast]

theorem jsSwap_perm {α : Type} (arr : Array α) (i j : Nat)
    (hi : i < arr.size) (hj : j < arr.size) :
    (jsSwap arr i j).toList.Perm arr.toList := by
  classical
  rw [jsSwap_toList arr i j hi hj]
  have hi' : i < arr.toList.length := by simpa using hi
  have hj' : j < arr.toList.length := by simpa using hj
  have h := set_set_swap_perm arr.toList i j hi' hj'
  simpa using h

theorem shuffleLoop_perm {α : Type} (rand : Nat → Nat) :
    ∀ (k : Nat) (arr : Array α), k < arr.size → (∀ i, rand i ≤ i) →
      (shuffleLoop rand arr k).toList.Perm arr.toList := by
  intro k
  induction k with
  | zero => intro arr _ _; exact List.Perm.refl _
  | succ k ih =>
    intro arr hk hr
    rw [shuffleLoop]
    have hj : rand (k + 1) < arr.size := lt_of_le_of_lt (hr (k + 1)) hk
    have hsz : (jsSwap arr (k + 1) (rand (k + 1))).size = arr.size := jsSwap_size _ _ _
    have h1 := ih (jsSwap arr (k + 1) (rand (k + 1)))
      (by rw [hsz]; exact Nat.lt_of_succ_lt hk) hr
    exact h1.trans (jsSwap_perm arr (k + 1) (rand (k + 1)) hk hj)

theorem shuffleArray_perm {α : Type} (arr : Array α) (rand : Nat → Nat)
    (hr : ∀ i, rand i ≤ i) : (shuffleArray arr rand).toList.Perm arr.toList := by
  unfold shuffleArray
  rcases Nat.eq_zero_or_pos arr.size with h0 | h0
  · rw [h0]
    exact List.Perm.refl _
  · exact shuffleLoop_perm rand (arr.size - 1) arr (Nat.sub_lt h0 Nat.one_pos) hr

theorem jsSwap_getElem?_of_ne {α : Type} (arr : Array α) (i j m : Nat)
    (hmi : m ≠ i) (hmj : m ≠ j) : (jsSwap arr i j)[m]? = arr[m]? := by
  unfold jsSwap
  split
  · rw [Array.getElem?_swap]
    simp [hmi.symm, hmj.symm]
  · rfl

theorem jsSwap_getElem?_left {α : Type} (arr : Array α) (i j : Nat)
    (hi : i < arr.size) (hj : j < arr.size) :
    (jsSwap arr i j)[i]? = some arr[j] := by
  unfold jsSwap
  rw [dif_pos ⟨hi, hj⟩, Array.getElem?_swap]
  by_cases h : j = i
  · subst h
    simp
  · simp [h]

theorem shuffleLoop_getElem?_of_gt {α : Type} (rand : Nat → Nat)
    (hr : ∀ i, rand i ≤ i) :
    ∀ (k m : Nat) (arr : Array α), k < m → (shuffleLoop rand arr k)[m]? = arr[m]? := by
  intro k
  induction k with
  | zero => intro m arr _; rfl
  | succ k ih =>
    intro m arr hm
    rw [shuffleLoop, ih m _ (Nat.lt_of_succ_lt hm)]
    exact jsSwap_getElem?_of_ne arr (k + 1) (rand (k + 1)) m
      (Nat.ne_of_gt hm) (Nat.ne_of_gt (lt_of_le_of_lt (hr (k + 1)) hm))

theorem shuffleLoop_inj (rand rand' : Nat → Nat)
    (hr : ∀ i, rand i ≤ i) (hr' : ∀ i, rand' i ≤ i) :
    ∀ (k : Nat) (arr : Array ℕ), arr.toList.Nodup → k < arr.size →
      shuffleLoop rand arr k = shuffleLoop rand' arr k →
      ∀ i, 1 ≤ i → i ≤ k → rand i = rand' i := by
  intro k
  induction k with
  | zero => intro arr _ _ _ i h1 h0; omega
  | succ k ih =>
    intro arr hnd hk heq i h1 hik
    have hjl : rand (k + 1) < arr.size := lt_of_le_of_lt (hr (k + 1)) hk
    have hjr : rand' (k + 1) < arr.size := lt_of_le_of_lt (hr' (k + 1)) hk
    -- the element left in slot k+1 is the one drawn by the first swap
    have hstep : rand (k + 1) = rand' (k + 1) := by
      have hL : (shuffleLoop rand arr (k + 1))[k + 1]? = some arr[rand (k + 1)] := by
        rw [shuffleLoop, shuffleLoop_getElem?_of_gt rand hr k (k + 1) _ (Nat.lt_succ_self k)]
        exact jsSwap_getElem?_left arr (k + 1) (rand (k + 1)) hk hjl
      have hR : (shuffleLoop rand' arr (k + 1))[k + 1]? = some arr[rand' (k + 1)] := by
        rw [shuffleLoop, shuffleLoop_getElem?_of_gt rand' hr' k (k + 1) _ (Nat.lt_succ_self k)]
        exact jsSwap_getElem?_left arr (k + 1) (rand' (k + 1)) hk hjr
      have hvals : arr[rand (k + 1)] = arr[rand' (k + 1)] := by
        have := hL.symm.trans (heq ▸ hR)
        simpa using this
      have hL1 : arr.toList[rand (k + 1)]? = arr.toList[rand' (k + 1)]? := by
        rw [← Array.getElem?_eq_getElem?_toList, ← Array.getElem?_eq_getElem?_toList,
          Array.getElem?_eq_getElem hjl, Array.getElem?_eq_getElem hjr, hvals]
      exact List.getElem?_inj (by simpa using hjl) hnd hL1
    rcases Nat.lt_or_ge i (k + 1) with hlt | hge
    · -- use the induction hypothesis on the swapped array
      have heq' : shuffleLoop rand (jsSwap arr (k + 1) (rand (k + 1))) k
          = shuffleLoop rand' (jsSwap arr (k + 1) (rand' (k + 1))) k := by
        rw [← shuffleLoop, ← shuffleLoop]
        exact heq
      rw [← hstep] at heq'
      have hnd' : (jsSwap arr (k + 1) (rand (k + 1))).toList.Nodup :=
        ((jsSwap_perm arr (k + 1) (rand (k + 1)) hk hjl).symm.nodup hnd)
      have hk' : k < (jsSwap arr (k + 1) (rand (k + 1))).size := by
        rw [jsSwap_size]
        exact Nat.lt_of_succ_lt hk
      exact ih (jsSwap arr (k + 1) (rand (k + 1))) hnd' hk' heq' i h1 (by omega)
    · have : i = k + 1 := by omega
      rw [this]
      exact hstep

theorem card_shuffle_choices (n : Nat) :
    Fintype.card ((i : Fin n) → Fin (i.1 + 1)) = n.factorial := by
  rw [Fintype.card_pi]
  have : ∀ i : Fin n, Fintype.card (Fin (i.1 + 1)) = i.1 + 1 := fun i => Fintype.card_fin _
  calc (∏ i : Fin n, Fintype.card (Fin (i.1 + 1)))
      = ∏ i : Fin n, (i.1 + 1) := by
        exact Finset.prod_congr rfl (fun i _ => this i)
    _ = ∏ i ∈ Finset.range n, (i + 1) := Fin.prod_univ_eq_prod_range _ n
    _ = n.factorial := Finset.prod_range_add_one_eq_factorial n

/-- Claim C6: `shuffleArray` permutes the array — the result is a permutation of
the input, preserving length and multiset — and is unbiased in the
Fisher–Yates/Durstenfeld sense: with each draw `rand i` uniform over the `i + 1`
values `0..i` and draws independent, the draw-sequence space has exactly `n!`
elements and distinct draw sequences produce distinct outputs (on arrays of
distinct entries), so every permutation of the entries is equally likely. -/
theorem shuffleArray_permutation_unbiased :
    (∀ (α : Type) (arr : Array α) (rand : Nat → Nat), (∀ i, rand i ≤ i) →
      (shuffleArray arr rand).size = arr.size
      ∧ (shuffleArray arr rand).toList.Perm arr.toList
      ∧ (Multiset.ofList (shuffleArray arr rand).toList = Multiset.ofList arr.toList))
    ∧ (∀ (arr : Array ℕ) (rand rand' : Nat → Nat), arr.toList.Nodup →
        (∀ i, rand i ≤ i) → (∀ i, rand' i ≤ i) →
        shuffleArray arr rand = shuffleArray arr rand' →
        ∀ i, 1 ≤ i → i < arr.size → rand i = rand' i)
    ∧ (∀ n : Nat, Fintype.card ((i : Fin n) → Fin (i.1 + 1)) = n.factorial) := by
  refine ⟨?_, ?_, card_shuffle_choices⟩
  · intro α arr rand hr
    refine ⟨?_, shuffleArray_perm arr rand hr, ?_⟩
    · unfold shuffleArray
      exact shuffleLoop_size rand _ arr
    · exact Multiset.coe_eq_coe.mpr (shuffleArray_perm arr rand hr)
  · intro arr rand rand' hnd h h' heq i h1 hi
    have hpos : 0 < arr.size := by omega
    exact shuffleLoop_inj rand rand' h h' (arr.size - 1) arr hnd
      (Nat.sub_lt hpos Nat.one_pos) heq i h1 (by omega)

theorem shuffleArray_permutation_unbiased_witness :
    (shuffleArray #[1, 2, 3] (fun _ => 0)).toList.Perm ([1, 2, 3] : List ℕ)
    ∧ (shuffleArray #[1, 2, 3] (fun _ => 0)).size = 3 := by
  have h := (shuffleArray_permutation_unbiased.1 ℕ #[1, 2, 3] (fun _ => 0)
    (fun i => Nat.zero_le i))
  exact ⟨h.2.1, h.1⟩
